import Mathlib

/-!
Verification of the golem worker-bridge expression parser
(`golem-worker-bridge/src/parser/expr_parser.rs`).

The parser driver `go`, the intermediate-state type `InternalExprResult`
with its `continue_build` combinator, and `build_with_last_complete_expr`
are embedded directly from the source. The token model, the token cursor
(`next_non_empty_token`, `capture_string_between`, `capture_tail`) and the
tokenizer live in a different module of the repository; they are modelled
from the specification (sections 3, 4.1 and 4.2). In particular a captured
region is re-tokenized by the source before the sub-parse; this is modelled
as the sub-parse running on the captured token sublist itself.

The driver recurses both on the remaining cursor and on captured
sub-regions, so the embedding takes an explicit fuel argument; every
recursive call of the source consumes at least one token, so any fuel
larger than the token count is sufficient. All stated transition laws hold
for every fuel value.
-/

/-- Token model, from spec section 3: the terminal kinds produced by the
tokenizer. -/
inductive Token where
  | RawString (s : String)
  | Request
  | WorkerResponse
  | InterpolationStart
  | OpenParen
  | CloseParen
  | OpenSquareBracket
  | ClosedSquareBracket
  | ClosedCurlyBrace
  | Dot
  | If
  | Then
  | Else
  | EqualTo
  | GreaterThan
  | LessThan
  | GreaterThanOrEqualTo
  | LessThanOrEqualTo
  | Space
  | NewLine
deriving DecidableEq, Repr

/-- Modelled from the spec: the surface text of a token, used by the
projection as_raw_string_token and by capture operations which return the
concatenated surface text of the captured tokens (spec sections 3, 4.1). -/
def Token.rawText : Token → String
  | .RawString s => s
  | .Request => "request"
  | .WorkerResponse => "worker.response"
  | .InterpolationStart => "$\x7b"
  | .OpenParen => "("
  | .CloseParen => ")"
  | .OpenSquareBracket => "["
  | .ClosedSquareBracket => "]"
  | .ClosedCurlyBrace => "\x7d"
  | .Dot => "."
  | .If => "if"
  | .Then => "then"
  | .Else => "else"
  | .EqualTo => "=="
  | .GreaterThan => ">"
  | .LessThan => "<"
  | .GreaterThanOrEqualTo => ">="
  | .LessThanOrEqualTo => "<="
  | .Space => " "
  | .NewLine => "\n"

/-- Modelled from the spec (section 4.3): the projection used in literal
mode. Every projected token is the token's surface text wrapped as
RawString; the sole token retaining structural meaning in literal mode is
InterpolationStart, which opens a code region. -/
def Token.asRawStringToken : Token → Token
  | .InterpolationStart => .InterpolationStart
  | t => .RawString t.rawText

/-- Expression AST, from spec section 3 (crate::expr, outside src/, so the
variant list follows the spec's enumeration, which the parser source
exercises constructor by constructor). -/
inductive Expr where
  | Literal (s : String)
  | Request
  | WorkerResponse
  | SelectField (e : Expr) (field : String)
  | SelectIndex (e : Expr) (index : Nat)
  | EqualTo (l r : Expr)
  | GreaterThan (l r : Expr)
  | GreaterThanOrEqualTo (l r : Expr)
  | LessThan (l r : Expr)
  | LessThanOrEqualTo (l r : Expr)
  | Cond (p t e : Expr)
  | Concat (es : List Expr)

/-- Error type: a single-variant message carrier (ParseError::Message). -/
inductive ParseError where
  | Message (s : String)
deriving DecidableEq

/-- Context tags for incomplete expressions, from expr_parser.rs
(ExpressionContext). -/
inductive ExpressionContext where
  | Condition
  | LessThan
  | GreaterThan
  | EqualTo
  | GreaterThanOrEqualTo
  | LessThanOrEqualTo
deriving DecidableEq

/-- Parser intermediate value, from expr_parser.rs (InternalExprResult):
Complete carries a finished AST node, InComplete a context tag and a
continuation awaiting the next complete operand, Empty means nothing has
accumulated yet. -/
inductive InternalExprResult where
  | Complete (e : Expr)
  | InComplete (scope : ExpressionContext) (k : Expr → InternalExprResult)
  | Empty

/-- Embeds InternalExprResult::is_empty from expr_parser.rs. -/
def InternalExprResult.is_empty : InternalExprResult → Bool
  | .Complete _ => false
  | .InComplete _ _ => false
  | .Empty => true

/-- Embeds InternalExprResult::continue_build from expr_parser.rs: a
Complete accumulator concatenates pairwise, an InComplete one feeds its
continuation, an Empty one is replaced by the new operand. -/
def InternalExprResult.continue_build : InternalExprResult → Expr → InternalExprResult
  | .Complete complete_expr, expr => .Complete (.Concat [complete_expr, expr])
  | .InComplete _ in_complete, expr => in_complete expr
  | .Empty, expr => .Complete expr

/-- Parse mode, from expr_parser.rs (Context): Literal accumulates text and
recognizes interpolation; Code activates operators and selectors. -/
inductive Context where
  | Code
  | Literal
deriving DecidableEq

/-- Embeds Context::is_code from expr_parser.rs. -/
def Context.is_code : Context → Bool
  | .Code => true
  | .Literal => false

/-- Modelled from the spec: whether the cursor's next_non_empty_token skips
this token (Space and NewLine, spec section 3). -/
def isEmptyTok : Token → Bool
  | .Space => true
  | .NewLine => true
  | _ => false

/-- Modelled from the spec (section 3): next_non_empty_token on a cursor,
returning the token found together with the remaining cursor; it advances
past the skipped whitespace and the returned token. -/
def nextNonEmpty : List Token → Option Token × List Token
  | [] => (none, [])
  | t :: rest => if isEmptyTok t then nextNonEmpty rest else (some t, rest)

/-- Modelled from the spec (section 4.2): capture_string_between after the
opening token has been consumed. Scans forward keeping a depth counter that
increments on further opens and decrements on closes; when depth returns to
zero it yields the tokens strictly between the outer open and its match,
and the cursor past the closing token. Returns none if unmatched. The source
returns the captured surface text and re-tokenizes it for sub-parses; here
the captured tokens are returned and the surface text is recovered with
tokensSurface. -/
def captureBetween (openTok closeTok : Token) : List Token → Nat → Option (List Token × List Token)
  | [], _ => none
  | t :: rest, depth =>
    if t = closeTok then
      if depth = 0 then
        some ([], rest)
      else
        (captureBetween openTok closeTok rest (depth - 1)).map fun p => (t :: p.1, p.2)
    else if t = openTok then
      (captureBetween openTok closeTok rest (depth + 1)).map fun p => (t :: p.1, p.2)
    else
      (captureBetween openTok closeTok rest depth).map fun p => (t :: p.1, p.2)

/-- Modelled from the spec (section 4.2): the surface text of a token
sequence, concatenated verbatim; capture operations return this text. -/
def tokensSurface (ts : List Token) : String :=
  String.join (ts.map Token.rawText)

/-- Modelled from the spec (section 4.2): the unmatched-capture error
message of capture_expr_between; the exact Debug and Display renderings of
tokens live outside src/. -/
def unmatchedMsg (captureUntil : Option Token) (captureFrom : Token) : String :=
  "Unable to find a matching closing symbol " ++
    (match captureUntil with
      | some t => "Some(" ++ t.rawText ++ ")"
      | none => "None") ++
    " corresponding to " ++ captureFrom.rawText

/-- Modelled from the spec (section 4.4, rule 7): surrounding-whitespace
trim of the captured index text, as the source's str trim. -/
def trimChars (cs : List Char) : List Char :=
  ((cs.dropWhile Char.isWhitespace).reverse.dropWhile Char.isWhitespace).reverse

/-- Modelled from the spec (section 4.4, rule 7): parse of a digit string
as a nonnegative integer, as the source's parse to usize; anything other
than a nonempty all-digit run (a sign, a letter, an empty capture) fails. -/
def parseNatDigits (cs : List Char) : Option Nat :=
  if cs.isEmpty then none
  else cs.foldl (fun acc c =>
    match acc with
    | none => none
    | some n => if c.isDigit then some (n * 10 + (c.toNat - 48)) else none) (some 0)

/-- Modelled from the spec (section 4.4, rule 7): parsing the trimmed
captured text as a nonnegative integer, as the source's parse to usize on
the captured index string. -/
def parseIndex (s : String) : Option Nat :=
  parseNatDigits (trimChars s.data)

/-- Embeds build_with_last_complete_expr from expr_parser.rs: builds on top
of the last expression only when it is Complete; an InComplete or Empty
state is an error. -/
def build_with_last_complete_expr (scope : ExpressionContext)
    (last_expression : InternalExprResult)
    (complete_expression : Expr → Expr → InternalExprResult) :
    Except ParseError InternalExprResult :=
  match last_expression with
  | .Complete prev_complete_expr =>
      .ok (.InComplete scope (fun future_expr =>
        complete_expression prev_complete_expr future_expr))
  | .InComplete _ _ =>
      .error (.Message "Cannot apply greater than on top of an incomplete expression")
  | .Empty =>
      .error (.Message "Cannot apply greater than on an empty expression")

/-- Embeds the three-level closure installed by the Token::If arm of go in
expr_parser.rs: an incomplete Condition builder that consumes the
predicate, the then-branch and the else-branch, in that order, and then
completes to Cond. -/
def condBuilder : InternalExprResult :=
  .InComplete .Condition fun first_result =>
    .InComplete .Condition fun second_result =>
      .InComplete .Condition fun else_result =>
        .Complete (.Cond first_result second_result else_result)

/-- Embeds the recursive parser driver go from expr_parser.rs (function
parse_tokens). The cursor is the remaining token list. The fuel argument is
an artifact of the embedding: the source recurses both on the advancing
cursor and on captured sub-regions, and every recursive call consumes at
least one token, so any fuel above the token count is sufficient; fuel
exhaustion returns a message no source branch produces. The helper
capture_expr_between of the source (capture, re-tokenize, sub-parse in Code
mode from Empty, feed via continue_build, propagate errors) is inlined at
its five call sites. -/
def go : Nat → Context → InternalExprResult → List Token → Except ParseError Expr
  | 0, _, _, _ => .error (.Message "insufficient fuel")
  | fuel + 1, context, prev_expression, ts =>
    match (if context.is_code then nextNonEmpty ts
           else (ts.head?.map Token.asRawStringToken, ts.tail)) with
    | (none, _) =>
      match prev_expression with
      | .Complete expr => .ok expr
      | _ => .error (.Message "failed expression. Internal logical error")
    | (some token, rest) =>
      match token with
      | .RawString raw_string =>
          go fuel context (prev_expression.continue_build (.Literal raw_string)) rest
      | .Request =>
          go fuel context (prev_expression.continue_build .Request) rest
      | .WorkerResponse =>
          go fuel context (prev_expression.continue_build .WorkerResponse) rest
      | .InterpolationStart =>
          match captureBetween .InterpolationStart .ClosedCurlyBrace rest 0 with
          | none => .error (.Message (unmatchedMsg (some .ClosedCurlyBrace) .InterpolationStart))
          | some (cap, rem) =>
            match go fuel .Code .Empty cap with
            | .error e => .error e
            | .ok inner => go fuel context (prev_expression.continue_build inner) rem
      | .OpenParen =>
          match captureBetween .OpenParen .CloseParen rest 0 with
          | none => .error (.Message (unmatchedMsg (some .CloseParen) .OpenParen))
          | some (cap, rem) =>
            match go fuel .Code .Empty cap with
            | .error e => .error e
            | .ok inner => go fuel context (prev_expression.continue_build inner) rem
      | .GreaterThanOrEqualTo =>
          if prev_expression.is_empty then
            .error (.Message "GreaterThanOrEqualTo (>=) is applied to a non existing left expression")
          else
            match build_with_last_complete_expr .GreaterThanOrEqualTo prev_expression
                (fun prev new => .Complete (.GreaterThanOrEqualTo prev new)) with
            | .error e => .error e
            | .ok new_expr => go fuel context new_expr rest
      | .GreaterThan =>
          if prev_expression.is_empty then
            .error (.Message "GreaterThan (>) is applied to a non existing left expression")
          else
            match build_with_last_complete_expr .GreaterThan prev_expression
                (fun prev new => .Complete (.GreaterThan prev new)) with
            | .error e => .error e
            | .ok new_expr => go fuel context new_expr rest
      | .LessThan =>
          if prev_expression.is_empty then
            .error (.Message "LessThan (<) is applied to a non existing left expression")
          else
            match build_with_last_complete_expr .LessThan prev_expression
                (fun prev new => .Complete (.LessThan prev new)) with
            | .error e => .error e
            | .ok new_expr => go fuel context new_expr rest
      | .LessThanOrEqualTo =>
          if prev_expression.is_empty then
            .error (.Message "LessThanOrEqualTo (<=)  is applied to a non existing left expression")
          else
            match build_with_last_complete_expr .LessThanOrEqualTo prev_expression
                (fun prev new => .Complete (.LessThanOrEqualTo prev new)) with
            | .error e => .error e
            | .ok new_expr => go fuel context new_expr rest
      | .EqualTo =>
          if prev_expression.is_empty then
            .error (.Message "EqualTo (=) is applied to a non existing left expression")
          else
            match build_with_last_complete_expr .EqualTo prev_expression
                (fun prev new => .Complete (.EqualTo prev new)) with
            | .error e => .error e
            | .ok new_expr => go fuel context new_expr rest
      | .Dot =>
          match nextNonEmpty rest with
          | (some (.RawString field), rest2) =>
              match prev_expression with
              | .Complete expr =>
                  go fuel context (.Complete (.SelectField expr field)) rest2
              | _ => .error (.Message ("Invalid token field " ++ field ++
                  ". Make sure expression format is correct"))
          | (some other, _) =>
              .error (.Message ("Expecting a valid field selection after dot instead of " ++
                other.rawText ++ "."))
          | (none, _) => .error (.Message "Expecting a field after dot")
      | .OpenSquareBracket =>
          match prev_expression with
          | .Complete prev_expr =>
              match captureBetween .OpenSquareBracket .ClosedSquareBracket rest 0 with
              | some (cap, rem) =>
                  match parseIndex (tokensSurface cap) with
                  | some index =>
                      go fuel context (.Complete (.SelectIndex prev_expr index)) rem
                  | none => .error (.Message ("Invalid index " ++ tokensSurface cap ++
                      " obtained within square brackets"))
              | none => .error (.Message
                  "Expecting a valid index inside square brackets near to field")
          | _ => .error (.Message "Invalid token [")
      | .If =>
          match captureBetween .If .Then rest 0 with
          | none => .error (.Message (unmatchedMsg (some .Then) .If))
          | some (cap, rem) =>
            match go fuel .Code .Empty cap with
            | .error e => .error e
            | .ok inner => go fuel context (condBuilder.continue_build inner) rem
      | .Then =>
          match prev_expression with
          | .InComplete .Condition k =>
              match captureBetween .Then .Else rest 0 with
              | none => .error (.Message (unmatchedMsg (some .Else) .Then))
              | some (cap, rem) =>
                match go fuel .Code .Empty cap with
                | .error e => .error e
                | .ok inner =>
                    go fuel context
                      ((InternalExprResult.InComplete .Condition k).continue_build inner) rem
          | _ => .error (.Message
              "then is a keyword and should be part of a if else condition logic")
      | .Else =>
          match prev_expression with
          | .InComplete .Condition k =>
              match go fuel .Code .Empty rest with
              | .error e => .error e
              | .ok inner =>
                  go fuel context
                    ((InternalExprResult.InComplete .Condition k).continue_build inner) []
          | _ => .error (.Message
              "else is a keyword and should be part of a if else condition logic")
      | .ClosedCurlyBrace => go fuel context prev_expression rest
      | .ClosedSquareBracket => go fuel context prev_expression rest
      | .CloseParen => go fuel context prev_expression rest
      | .Space => go fuel context prev_expression rest
      | .NewLine => go fuel context prev_expression rest

/-- Embeds the entry of parse_tokens from expr_parser.rs: the driver starts
in Literal mode with an Empty accumulator; the fuel bound exceeds the token
count, which every recursive call strictly decreases. -/
def parse_tokens (ts : List Token) : Except ParseError Expr :=
  go (ts.length + 1) .Literal .Empty ts

/-- Claim C1: consuming an If token installs the three-level Condition
builder, immediately captures the balanced region between If and Then,
parses it in Code mode from Empty, and feeds the result into the builder,
leaving the state as an Incomplete Condition awaiting the then-branch; the
builder consumes exactly three complete operands p, t, e, in that order,
and then becomes Complete (Cond p t e). -/
theorem if_token_installs_condition_builder
    (f : Nat) (prev : InternalExprResult) (ts cap rem : List Token) (p : Expr)
    (hcap : captureBetween .If .Then ts 0 = some (cap, rem))
    (hsub : go f .Code .Empty cap = .ok p) :
    (go (f + 1) .Code prev (.If :: ts) =
      go f .Code (.InComplete .Condition fun t =>
        .InComplete .Condition fun e => .Complete (.Cond p t e)) rem) ∧
    (condBuilder.continue_build p =
      .InComplete .Condition fun t =>
        .InComplete .Condition fun e => .Complete (.Cond p t e)) ∧
    (∀ q t e : Expr,
      ((condBuilder.continue_build q).continue_build t).continue_build e =
        .Complete (.Cond q t e)) ∧
    (∀ q t : Expr, ∃ k,
      (condBuilder.continue_build q).continue_build t = .InComplete .Condition k) := by
  refine ⟨?_, rfl, fun q t e => rfl, fun q t => ⟨_, rfl⟩⟩
  simp only [go, Context.is_code, if_pos, nextNonEmpty, isEmptyTok, if_neg, Bool.false_eq_true,
    not_false_iff, hcap, hsub]
  rfl

/-- Witness for C1 at a concrete input: the predicate region of
if p then is the single token p, it parses to Literal p, and the If step
leaves the two-slot Condition builder. -/
theorem if_token_installs_condition_builder_instance :
    captureBetween .If .Then [.RawString "p", .Then] 0 = some ([.RawString "p"], []) ∧
    go 2 .Code .Empty [.RawString "p"] = .ok (.Literal "p") ∧
    go 3 .Code .Empty (.If :: [.RawString "p", .Then]) =
      go 2 .Code (.InComplete .Condition fun t =>
        .InComplete .Condition fun e => .Complete (.Cond (.Literal "p") t e)) [] :=
  ⟨rfl, rfl,
    (if_token_installs_condition_builder 2 .Empty [.RawString "p", .Then]
      [.RawString "p"] [] (.Literal "p") rfl rfl).1⟩

/-- Claim C3: continue_build maps Empty to Complete of the operand,
Complete e to a fresh binary Concat of e and the operand (so repeated
application yields a left-leaning tree of binary Concat nodes, never a
flattened n-ary node), and InComplete with continuation k to k of the
operand. -/
theorem continue_build_cases (x e t : Expr) (c : ExpressionContext)
    (k : Expr → InternalExprResult) :
    (InternalExprResult.Empty.continue_build x = .Complete x) ∧
    ((InternalExprResult.Complete e).continue_build x = .Complete (.Concat [e, x])) ∧
    (((InternalExprResult.Complete e).continue_build x).continue_build t =
      .Complete (.Concat [.Concat [e, x], t])) ∧
    ((InternalExprResult.InComplete c k).continue_build x = k x) :=
  ⟨rfl, rfl, rfl, rfl⟩

/-- Claim C4: with the cursor exhausted the driver returns the accumulated
expression exactly when the state is Complete, and the internal-logical
error in every other terminal state; and a parse yields nothing besides a
complete AST or an error message. -/
theorem end_of_cursor_behaviour (f : Nat) (ctx : Context)
    (prev : InternalExprResult) (ts : List Token) :
    (go (f + 1) ctx prev [] =
      match prev with
      | .Complete e => .ok e
      | _ => .error (.Message "failed expression. Internal logical error")) ∧
    ((∃ e, go f ctx prev ts = .ok e) ∨
      ∃ m, go f ctx prev ts = .error (.Message m)) := by
  constructor
  · cases ctx <;> cases prev <;> rfl
  · rcases hg : go f ctx prev ts with m | e
    · rcases m with ⟨s⟩
      exact Or.inr ⟨s, rfl⟩
    · exact Or.inl ⟨e, rfl⟩

/-- Claim C9: the If handler discards the accumulated state: the driver's
result on a token stream starting with If in code mode is independent of
the previous state, whatever it was; the old value is neither consulted nor
concatenated. -/
theorem if_token_ignores_previous_state (f : Nat)
    (prev1 prev2 : InternalExprResult) (ts : List Token) :
    go f .Code prev1 (.If :: ts) = go f .Code prev2 (.If :: ts) := by
  cases f with
  | zero => rfl
  | succ f => rfl

/-- Claim C10: in code mode a stray ClosedCurlyBrace, ClosedSquareBracket
or CloseParen token is a no-op: the driver continues with the state
unchanged, producing no error and leaving the output untouched. -/
theorem stray_closing_tokens_are_noops (f : Nat)
    (prev : InternalExprResult) (ts : List Token) :
    (go (f + 1) .Code prev (.ClosedCurlyBrace :: ts) = go f .Code prev ts) ∧
    (go (f + 1) .Code prev (.ClosedSquareBracket :: ts) = go f .Code prev ts) ∧
    (go (f + 1) .Code prev (.CloseParen :: ts) = go f .Code prev ts) :=
  ⟨rfl, rfl, rfl⟩

/-- Claim C2: each comparison token consumed in code mode fails with its
kind-specific missing-left-operand message when the state is Empty, fails
with the incomplete-expression message when the state is Incomplete, and
with a Complete left operand installs an Incomplete builder whose
continuation, applied to any right operand, completes to the matching
comparison node. -/
theorem comparison_token_transitions (f : Nat) (ts : List Token) (lhs : Expr)
    (c : ExpressionContext) (k : Expr → InternalExprResult) :
    (go (f + 1) .Code .Empty (.GreaterThan :: ts) =
      .error (.Message "GreaterThan (>) is applied to a non existing left expression")) ∧
    (go (f + 1) .Code (.InComplete c k) (.GreaterThan :: ts) =
      .error (.Message "Cannot apply greater than on top of an incomplete expression")) ∧
    (go (f + 1) .Code (.Complete lhs) (.GreaterThan :: ts) =
      go f .Code (.InComplete .GreaterThan fun rhs =>
        .Complete (.GreaterThan lhs rhs)) ts) ∧
    (go (f + 1) .Code .Empty (.GreaterThanOrEqualTo :: ts) =
      .error (.Message "GreaterThanOrEqualTo (>=) is applied to a non existing left expression")) ∧
    (go (f + 1) .Code (.InComplete c k) (.GreaterThanOrEqualTo :: ts) =
      .error (.Message "Cannot apply greater than on top of an incomplete expression")) ∧
    (go (f + 1) .Code (.Complete lhs) (.GreaterThanOrEqualTo :: ts) =
      go f .Code (.InComplete .GreaterThanOrEqualTo fun rhs =>
        .Complete (.GreaterThanOrEqualTo lhs rhs)) ts) ∧
    (go (f + 1) .Code .Empty (.LessThan :: ts) =
      .error (.Message "LessThan (<) is applied to a non existing left expression")) ∧
    (go (f + 1) .Code (.InComplete c k) (.LessThan :: ts) =
      .error (.Message "Cannot apply greater than on top of an incomplete expression")) ∧
    (go (f + 1) .Code (.Complete lhs) (.LessThan :: ts) =
      go f .Code (.InComplete .LessThan fun rhs =>
        .Complete (.LessThan lhs rhs)) ts) ∧
    (go (f + 1) .Code .Empty (.LessThanOrEqualTo :: ts) =
      .error (.Message "LessThanOrEqualTo (<=)  is applied to a non existing left expression")) ∧
    (go (f + 1) .Code (.InComplete c k) (.LessThanOrEqualTo :: ts) =
      .error (.Message "Cannot apply greater than on top of an incomplete expression")) ∧
    (go (f + 1) .Code (.Complete lhs) (.LessThanOrEqualTo :: ts) =
      go f .Code (.InComplete .LessThanOrEqualTo fun rhs =>
        .Complete (.LessThanOrEqualTo lhs rhs)) ts) ∧
    (go (f + 1) .Code .Empty (.EqualTo :: ts) =
      .error (.Message "EqualTo (=) is applied to a non existing left expression")) ∧
    (go (f + 1) .Code (.InComplete c k) (.EqualTo :: ts) =
      .error (.Message "Cannot apply greater than on top of an incomplete expression")) ∧
    (go (f + 1) .Code (.Complete lhs) (.EqualTo :: ts) =
      go f .Code (.InComplete .EqualTo fun rhs =>
        .Complete (.EqualTo lhs rhs)) ts) :=
  ⟨rfl, rfl, rfl, rfl, rfl, rfl, rfl, rfl, rfl, rfl, rfl, rfl, rfl, rfl, rfl⟩

/-- Claim C5: after a Dot token in code mode, the next non-empty token must
be a RawString field: end of input gives the missing-field error, any other
token the invalid-field-selection error; with such a field, a Complete
state extends to Complete (SelectField e field) (selection is
left-associative on the immediately preceding complete expression), and
every other state fails with the invalid-token-field error. -/
theorem dot_token_transitions (f : Nat) (ts rest : List Token) (field : String)
    (e : Expr) (c : ExpressionContext) (k : Expr → InternalExprResult)
    (prev : InternalExprResult) (other : Token) :
    (nextNonEmpty ts = (none, rest) →
      go (f + 1) .Code prev (.Dot :: ts) =
        .error (.Message "Expecting a field after dot")) ∧
    (nextNonEmpty ts = (some (.RawString field), rest) →
      go (f + 1) .Code (.Complete e) (.Dot :: ts) =
        go f .Code (.Complete (.SelectField e field)) rest) ∧
    (nextNonEmpty ts = (some (.RawString field), rest) →
      go (f + 1) .Code .Empty (.Dot :: ts) =
        .error (.Message ("Invalid token field " ++ field ++
          ". Make sure expression format is correct"))) ∧
    (nextNonEmpty ts = (some (.RawString field), rest) →
      go (f + 1) .Code (.InComplete c k) (.Dot :: ts) =
        .error (.Message ("Invalid token field " ++ field ++
          ". Make sure expression format is correct"))) ∧
    (nextNonEmpty ts = (some other, rest) → (∀ s, other ≠ .RawString s) →
      go (f + 1) .Code prev (.Dot :: ts) =
        .error (.Message ("Expecting a valid field selection after dot instead of " ++
          other.rawText ++ "."))) := by
  refine ⟨fun h => ?_, fun h => ?_, fun h => ?_, fun h => ?_, fun h ho => ?_⟩
  · simp only [go, Context.is_code, if_pos, nextNonEmpty, isEmptyTok, if_neg,
      Bool.false_eq_true, not_false_iff, h]
  · simp only [go, Context.is_code, if_pos, nextNonEmpty, isEmptyTok, if_neg,
      Bool.false_eq_true, not_false_iff, h]
  · simp only [go, Context.is_code, if_pos, nextNonEmpty, isEmptyTok, if_neg,
      Bool.false_eq_true, not_false_iff, h]
  · simp only [go, Context.is_code, if_pos, nextNonEmpty, isEmptyTok, if_neg,
      Bool.false_eq_true, not_false_iff, h]
  · cases other
    case RawString s => exact absurd rfl (ho s)
    all_goals
      simp only [go, Context.is_code, if_pos, nextNonEmpty, isEmptyTok, if_neg,
        Bool.false_eq_true, not_false_iff, h]

/-- Witness for C5 at concrete inputs: field selection on request, a dot at
the end of input, and a dot followed by a keyword token. -/
theorem dot_token_transitions_instance :
    (go 2 .Code (.Complete .Request) [.Dot, .RawString "x"] =
      go 1 .Code (.Complete (.SelectField .Request "x")) []) ∧
    (go 2 .Code (.Complete .Request) [.Dot] =
      .error (.Message "Expecting a field after dot")) ∧
    (go 2 .Code .Empty [.Dot, .RawString "x"] =
      .error (.Message ("Invalid token field " ++ "x" ++
        ". Make sure expression format is correct"))) ∧
    (go 2 .Code (.Complete .Request) [.Dot, .Then] =
      .error (.Message ("Expecting a valid field selection after dot instead of " ++
        Token.rawText .Then ++ "."))) :=
  ⟨(dot_token_transitions 1 [.RawString "x"] [] "x" .Request .Condition
      InternalExprResult.Complete (.Complete .Request) .Then).2.1 rfl,
   (dot_token_transitions 1 [] [] "x" .Request .Condition
      InternalExprResult.Complete (.Complete .Request) .Then).1 rfl,
   (dot_token_transitions 1 [.RawString "x"] [] "x" .Request .Condition
      InternalExprResult.Complete (.Complete .Request) .Then).2.2.1 rfl,
   (dot_token_transitions 1 [.Then] [] "x" .Request .Condition
      InternalExprResult.Complete (.Complete .Request) .Then).2.2.2.2 rfl
      (fun _ h => Token.noConfusion h)⟩

/-- Claim C6: an OpenSquareBracket token in code mode requires a Complete
state (else the invalid-token error); with one, the region up to the
matching close bracket is captured, its surface text trimmed and parsed as
a nonnegative integer n, yielding Complete (SelectIndex e n); a failed
capture gives the missing-index error, and a non-integer capture (negative
numbers included) the invalid-index error carrying the untrimmed text. -/
theorem open_square_bracket_transitions (f : Nat) (ts cap rem : List Token)
    (e : Expr) (c : ExpressionContext) (k : Expr → InternalExprResult) (n : Nat) :
    (go (f + 1) .Code .Empty (.OpenSquareBracket :: ts) =
      .error (.Message "Invalid token [")) ∧
    (go (f + 1) .Code (.InComplete c k) (.OpenSquareBracket :: ts) =
      .error (.Message "Invalid token [")) ∧
    (captureBetween .OpenSquareBracket .ClosedSquareBracket ts 0 = none →
      go (f + 1) .Code (.Complete e) (.OpenSquareBracket :: ts) =
        .error (.Message "Expecting a valid index inside square brackets near to field")) ∧
    (captureBetween .OpenSquareBracket .ClosedSquareBracket ts 0 = some (cap, rem) →
      parseNatDigits (trimChars (tokensSurface cap).data) = some n →
      go (f + 1) .Code (.Complete e) (.OpenSquareBracket :: ts) =
        go f .Code (.Complete (.SelectIndex e n)) rem) ∧
    (captureBetween .OpenSquareBracket .ClosedSquareBracket ts 0 = some (cap, rem) →
      parseNatDigits (trimChars (tokensSurface cap).data) = none →
      go (f + 1) .Code (.Complete e) (.OpenSquareBracket :: ts) =
        .error (.Message ("Invalid index " ++ tokensSurface cap ++
          " obtained within square brackets"))) := by
  refine ⟨rfl, rfl, fun h => ?_, fun h hn => ?_, fun h hn => ?_⟩
  · simp only [go, Context.is_code, if_pos, nextNonEmpty, isEmptyTok, if_neg,
      Bool.false_eq_true, not_false_iff, h]
  · simp only [go, Context.is_code, if_pos, nextNonEmpty, isEmptyTok, if_neg,
      Bool.false_eq_true, not_false_iff, h, parseIndex, hn]
  · simp only [go, Context.is_code, if_pos, nextNonEmpty, isEmptyTok, if_neg,
      Bool.false_eq_true, not_false_iff, h, parseIndex, hn]

/-- Witness for C6 at concrete inputs: a successful index selection, an
unterminated bracket, and a negative index. -/
theorem open_square_bracket_transitions_instance :
    (go 2 .Code (.Complete .Request) [.OpenSquareBracket, .RawString "0", .ClosedSquareBracket] =
      go 1 .Code (.Complete (.SelectIndex .Request 0)) []) ∧
    (go 2 .Code (.Complete .Request) [.OpenSquareBracket, .RawString "0"] =
      .error (.Message "Expecting a valid index inside square brackets near to field")) ∧
    (go 2 .Code (.Complete .Request) [.OpenSquareBracket, .RawString "-1", .ClosedSquareBracket] =
      .error (.Message ("Invalid index " ++ tokensSurface [.RawString "-1"] ++
        " obtained within square brackets"))) :=
  ⟨(open_square_bracket_transitions 1 [.RawString "0", .ClosedSquareBracket]
      [.RawString "0"] [] .Request .Condition InternalExprResult.Complete 0).2.2.2.1 rfl rfl,
   (open_square_bracket_transitions 1 [.RawString "0"]
      [.RawString "0"] [] .Request .Condition InternalExprResult.Complete 0).2.2.1 rfl,
   (open_square_bracket_transitions 1 [.RawString "-1", .ClosedSquareBracket]
      [.RawString "-1"] [] .Request .Condition InternalExprResult.Complete 0).2.2.2.2 rfl rfl⟩

/-- Claim C7: a Then or Else token whose state is not an Incomplete with
Condition context is the corresponding keyword error; with such a state,
Then captures the balanced region up to Else and Else captures all
remaining tokens with no closing token, each region is parsed in Code mode
from Empty, and the result is fed to the pending Condition continuation. -/
theorem then_else_transitions (f : Nat) (ts cap rem : List Token)
    (k : Expr → InternalExprResult) (p inner : Expr) (c : ExpressionContext) :
    (go (f + 1) .Code .Empty (.Then :: ts) =
      .error (.Message "then is a keyword and should be part of a if else condition logic")) ∧
    (go (f + 1) .Code (.Complete p) (.Then :: ts) =
      .error (.Message "then is a keyword and should be part of a if else condition logic")) ∧
    (c ≠ .Condition →
      go (f + 1) .Code (.InComplete c k) (.Then :: ts) =
        .error (.Message "then is a keyword and should be part of a if else condition logic")) ∧
    (captureBetween .Then .Else ts 0 = some (cap, rem) →
      go f .Code .Empty cap = .ok inner →
      go (f + 1) .Code (.InComplete .Condition k) (.Then :: ts) =
        go f .Code (k inner) rem) ∧
    (go (f + 1) .Code .Empty (.Else :: ts) =
      .error (.Message "else is a keyword and should be part of a if else condition logic")) ∧
    (go (f + 1) .Code (.Complete p) (.Else :: ts) =
      .error (.Message "else is a keyword and should be part of a if else condition logic")) ∧
    (c ≠ .Condition →
      go (f + 1) .Code (.InComplete c k) (.Else :: ts) =
        .error (.Message "else is a keyword and should be part of a if else condition logic")) ∧
    (go f .Code .Empty ts = .ok inner →
      go (f + 1) .Code (.InComplete .Condition k) (.Else :: ts) =
        go f .Code (k inner) []) := by
  refine ⟨rfl, rfl, fun hc => ?_, fun h hsub => ?_, rfl, rfl, fun hc => ?_, fun hsub => ?_⟩
  · cases c
    case Condition => exact absurd rfl hc
    all_goals rfl
  · simp only [go, Context.is_code, if_pos, nextNonEmpty, isEmptyTok, if_neg,
      Bool.false_eq_true, not_false_iff, h, hsub]
    rfl
  · cases c
    case Condition => exact absurd rfl hc
    all_goals rfl
  · simp only [go, Context.is_code, if_pos, nextNonEmpty, isEmptyTok, if_neg,
      Bool.false_eq_true, not_false_iff, hsub]
    rfl

/-- Witness for C7 at concrete inputs: a Then with a pending Condition
builder, a stray Then under a GreaterThan incompleteness, and an Else
draining the rest of the stream. -/
theorem then_else_transitions_instance :
    (go 3 .Code (.InComplete .Condition InternalExprResult.Complete)
        (.Then :: [.RawString "t", .Else]) =
      go 2 .Code (.Complete (.Literal "t")) []) ∧
    (go 3 .Code (.InComplete .GreaterThan InternalExprResult.Complete)
        (.Then :: [.RawString "t", .Else]) =
      .error (.Message "then is a keyword and should be part of a if else condition logic")) ∧
    (go 3 .Code (.InComplete .Condition InternalExprResult.Complete)
        (.Else :: [.RawString "e"]) =
      go 2 .Code (.Complete (.Literal "e")) []) :=
  ⟨(then_else_transitions 2 [.RawString "t", .Else] [.RawString "t"] []
      InternalExprResult.Complete .Request (.Literal "t") .Condition).2.2.2.1 rfl rfl,
   (then_else_transitions 2 [.RawString "t", .Else] [.RawString "t"] []
      InternalExprResult.Complete .Request (.Literal "t") .GreaterThan).2.2.1
      (fun hcc => ExpressionContext.noConfusion hcc),
   (then_else_transitions 2 [.RawString "e"] [] []
      InternalExprResult.Complete .Request (.Literal "e") .Condition).2.2.2.2.2.2.2 rfl⟩

/-- Helper for the unreachability claim: with a non-Empty last expression,
build_with_last_complete_expr never yields the empty-expression message. -/
lemma build_with_last_complete_expr_ne_empty_msg
    (scope : ExpressionContext) (last : InternalExprResult)
    (cb : Expr → Expr → InternalExprResult) (hne : ¬ last.is_empty = true) :
    build_with_last_complete_expr scope last cb ≠
      .error (.Message "Cannot apply greater than on an empty expression") := by
  cases last with
  | Complete e => exact fun h => Except.noConfusion h
  | InComplete c k =>
      intro h
      injection h with h1
      injection h1 with h2
      exact absurd h2 (by decide)
  | Empty => exact absurd rfl hne

/-- Helper for the unreachability claim: a message assembled around a
variable middle part differs from any message starting with a different
character. -/
lemma append3_ne (a x b t : String) (c : Char) (ha : a.data.head? = some c)
    (ht : ¬ t.data.head? = some c) : a ++ x ++ b ≠ t := by
  intro h
  apply ht
  rw [← h, String.data_append, String.data_append]
  cases hd : a.data with
  | nil => rw [hd] at ha; exact Option.noConfusion ha
  | cons y ys =>
      rw [hd] at ha
      simp only [List.cons_append, List.head?_cons] at ha ⊢
      exact ha

/-- Claim C8: the Empty-state branch of build_with_last_complete_expr is
unreachable: every comparison handler checks is_empty first and returns its
own kind-specific error, so no run of the driver, from any mode, state,
fuel and token stream, ever produces the empty-expression message of that
branch. -/
theorem empty_operand_error_unreachable (f : Nat) (ctx : Context)
    (prev : InternalExprResult) (ts : List Token) :
    go f ctx prev ts ≠ .error (.Message "Cannot apply greater than on an empty expression") := by
  induction f generalizing ctx prev ts with
  | zero =>
    intro h
    simp only [go] at h
    injection h with h1
    injection h1 with h2
    exact absurd h2 (by decide)
  | succ f ih =>
    intro h
    simp only [go] at h
    repeat' split at h
    all_goals first
      | exact Except.noConfusion h
      | exact ih _ _ _ h
      | (injection h with h1
         first
           | (injection h1 with h2
              first
                | exact absurd h2 (by decide)
                | exact absurd h2 (append3_ne _ _ _ _ _ rfl (by decide)))
           | (subst h1
              first
                | exact ih _ _ _ (by assumption)
                | exact absurd (by assumption)
                    (build_with_last_complete_expr_ne_empty_msg _ _ _ (by assumption))))
